import Mathlib

/-!
Verification development for the Singapore-rainfall ingestion and analytics
core (`data_processor.py` / `analyzer.py`).  The Python code is shallowly
embedded: dictionaries with optional alternate keys become structures of
`Option` fields, pandas DataFrames become lists of row structures, Python
floats become rationals, raised exceptions become `Except.error`, and the
mutable `stations_info` instance dictionary becomes explicit state passing.
-/

namespace Bonito

/-! ### Timestamps

A parsed timestamp (`datetime`/`pd.Timestamp`).  A valid datetime always has
an hour in `0..23`, which we record in the type, mirroring Python's
`datetime` invariant. -/

structure Ts where
  year : Nat
  month : Nat
  day : Nat
  hour : Fin 24
  minute : Nat
deriving DecidableEq, Repr

/-- The value stored in the DataFrame's `timestamp` column: either a real
timestamp or pandas' missing-datetime marker `NaT`. -/
inductive TsV where
  | nat : TsV
  | ts : Ts → TsV
deriving DecidableEq, Repr

/-- A raw timestamp string as found in the payload, abstracted by its
parseability: `valid t` is a string that `pd.to_datetime` parses to `t`,
`emptyStr` is the empty string (the default used when both timestamp keys
are absent), `invalid` is a nonempty string `pd.to_datetime` cannot parse. -/
inductive RawTs where
  | valid : Ts → RawTs
  | emptyStr : RawTs
  | invalid : RawTs
deriving DecidableEq, Repr

/-- `pd.to_datetime` on a scalar string: the empty string converts to `NaT`,
a valid string parses, a nonempty unparsable string raises `ValueError`. -/
def pdToDatetime : RawTs → Except Unit TsV
  | .valid t => .ok (.ts t)
  | .emptyStr => .ok .nat
  | .invalid => .error ()

/-- `.dt.hour` of a timestamp column value (`NaT` gives a missing value). -/
def TsV.hourF : TsV → Option (Fin 24)
  | .nat => none
  | .ts t => some t.hour

/-- `.dt.date` of a timestamp column value (`NaT` gives a missing value). -/
def TsV.dateF : TsV → Option (Nat × Nat × Nat)
  | .nat => none
  | .ts t => some (t.year, t.month, t.day)

/-! ### Raw payload shape

JSON dictionaries whose keys may appear under several alternate names are
embedded as structures with one `Option` field per supported key.  A list
element that is not a dictionary (on which `.get` would raise
`AttributeError`) is the `nondict` constructor of an entry type. -/

structure RawLoc where
  latitude : Option ℚ
  lat : Option ℚ
  longitude : Option ℚ
  lng : Option ℚ
  lon : Option ℚ
deriving DecidableEq, Repr

structure RawStation where
  id : Option String
  stationId : Option String
  name : Option String
  labelLocation : Option RawLoc
  location : Option RawLoc
  coordinates : Option RawLoc
deriving DecidableEq, Repr

inductive RawStationEntry where
  | dict : RawStation → RawStationEntry
  | nondict : RawStationEntry
deriving DecidableEq, Repr

structure RawDataPoint where
  stationId : Option String
  station_id : Option String
  id : Option String
  value : Option ℚ
  rainfall : Option ℚ
deriving DecidableEq, Repr

inductive RawDataPointEntry where
  | dict : RawDataPoint → RawDataPointEntry
  | nondict : RawDataPointEntry
deriving DecidableEq, Repr

structure RawReading where
  timestamp : Option RawTs
  time : Option RawTs
  data : List RawDataPointEntry
deriving DecidableEq, Repr

inductive RawReadingEntry where
  | dict : RawReading → RawReadingEntry
  | nondict : RawReadingEntry
deriving DecidableEq, Repr

structure PayloadData where
  stations : List RawStationEntry
  readings : List RawReadingEntry
deriving DecidableEq, Repr

/-- An API response: `none` models a falsy response or one without a `data`
key; missing `stations`/`readings` keys are the empty list. -/
abbrev Payload := Option PayloadData

/-! ### RainfallDataProcessor -/

structure StationInfo where
  name : String
  latitude : ℚ
  longitude : ℚ
deriving DecidableEq, Repr

/-- The `self.stations_info` dictionary, as a lookup function. -/
def StationsInfo := String → Option StationInfo

def StationsInfo.insert (m : StationsInfo) (k : String) (v : StationInfo) :
    StationsInfo :=
  fun x => if x = k then some v else m x

/-- Mutable processor state: only `stations_info`, set to `{}` in
`__init__` and accumulated by `process_stations`. -/
structure ProcState where
  stations_info : StationsInfo

def procInit : ProcState := ⟨fun _ => none⟩

/-- `station.get('id', station.get('stationId', 'unknown'))`. -/
def extractStationId (s : RawStation) : String :=
  s.id.getD (s.stationId.getD "unknown")

/-- The `if 'labelLocation' in station ... elif 'location' ... elif
'coordinates' ...` chain; `none` models the `location_info = {}` default. -/
def locationOf (s : RawStation) : Option RawLoc :=
  s.labelLocation.orElse fun _ => s.location.orElse fun _ => s.coordinates

/-- `location_info.get('latitude', location_info.get('lat', 0))`. -/
def locLatitude : Option RawLoc → ℚ
  | none => 0
  | some l => l.latitude.getD (l.lat.getD 0)

/-- `location_info.get('longitude', location_info.get('lng',
location_info.get('lon', 0)))`. -/
def locLongitude : Option RawLoc → ℚ
  | none => 0
  | some l => l.longitude.getD (l.lng.getD (l.lon.getD 0))

/-- How one station dictionary is turned into the `stations_info` entry. -/
def extractStationInfo (s : RawStation) : String × StationInfo :=
  let sid := extractStationId s
  (sid,
    { name := s.name.getD ("Station_" ++ sid)
      latitude := locLatitude (locationOf s)
      longitude := locLongitude (locationOf s) })

/-- The `for station in stations` loop body of `process_stations`.  A
non-dictionary entry raises `AttributeError` at its `.get` call; entries
inserted before the raise stay in the (mutated-in-place) dictionary, so the
map accumulated so far is returned alongside the error. -/
def processStationsLoop :
    List RawStationEntry → StationsInfo → StationsInfo × Except Unit Unit
  | [], m => (m, .ok ())
  | .nondict :: _, m => (m, .error ())
  | .dict s :: rest, m =>
      let (sid, info) := extractStationInfo s
      processStationsLoop rest (m.insert sid info)

/-- `process_stations`: early-returns an empty DataFrame when the payload or
its `stations` list is missing/empty, otherwise runs the accumulation loop
and returns `pd.DataFrame(stations)` (modelled by the raw entry list). -/
def processStations (p : Payload) (st : ProcState) :
    ProcState × Except Unit (List RawStationEntry) :=
  match p with
  | none => (st, .ok [])
  | some d =>
    if d.stations.isEmpty then (st, .ok [])
    else
      match processStationsLoop d.stations st.stations_info with
      | (m, .ok ()) => (⟨m⟩, .ok d.stations)
      | (m, .error e) => (⟨m⟩, .error e)

/-- One row of the DataFrame built by `process_readings`, including the
derived `hour` and `date` columns added after the loop (pure functions of
the `timestamp` column, so set here directly). -/
structure RowP where
  timestamp : TsV
  station_id : String
  station_name : String
  latitude : ℚ
  longitude : ℚ
  rainfall_mm : ℚ
  hour : Option (Fin 24)
  date : Option (Nat × Nat × Nat)
deriving DecidableEq, Repr

/-- `data_point.get('stationId', data_point.get('station_id',
data_point.get('id', 'unknown')))`. -/
def extractDpStationId (d : RawDataPoint) : String :=
  d.stationId.getD (d.station_id.getD (d.id.getD "unknown"))

/-- `data_point.get('value', data_point.get('rainfall', 0))`. -/
def extractDpValue (d : RawDataPoint) : ℚ :=
  d.value.getD (d.rainfall.getD 0)

/-- Building one appended row, resolving the station through the
accumulated `stations_info` dictionary
(`station_info = self.stations_info.get(station_id, {})`). -/
def mkRowP (m : StationsInfo) (tsv : TsV) (d : RawDataPoint) : RowP :=
  let sid := extractDpStationId d
  let info := m sid
  { timestamp := tsv
    station_id := sid
    station_name := (info.map StationInfo.name).getD ("Station_" ++ sid)
    latitude := (info.map StationInfo.latitude).getD 0
    longitude := (info.map StationInfo.longitude).getD 0
    rainfall_mm := extractDpValue d
    hour := tsv.hourF
    date := tsv.dateF }

/-- The exception-propagating loop shape shared by the reading loops: rows
are appended in order, and the first raised exception aborts the whole
traversal. -/
def exceptMap {α β : Type} (f : α → Except Unit β) : List α → Except Unit (List β)
  | [] => .ok []
  | a :: l =>
      match f a with
      | .error e => .error e
      | .ok b => (exceptMap f l).map fun bs => b :: bs

/-- One iteration of the inner `for data_point in data_points` loop: a
non-dictionary data point raises at `.get`; otherwise `pd.to_datetime` runs
on the bucket's timestamp string (and may raise). -/
def processDataPoint (m : StationsInfo) (rawTs : RawTs) :
    RawDataPointEntry → Except Unit RowP
  | .nondict => .error ()
  | .dict d => (pdToDatetime rawTs).map fun tsv => mkRowP m tsv d

/-- One iteration of the outer `for reading in readings` loop.  Note that a
bucket with an empty `data` list never calls `pd.to_datetime`, so even an
unparsable timestamp raises nothing there. -/
def processBucket (m : StationsInfo) : RawReadingEntry → Except Unit (List RowP)
  | .nondict => .error ()
  | .dict r =>
      let rawTs := r.timestamp.getD (r.time.getD .emptyStr)
      exceptMap (processDataPoint m rawTs) r.data

/-- `process_readings`: an exception anywhere in the loops propagates and no
DataFrame is produced; there is no error collection. -/
def processReadings (p : Payload) (st : ProcState) : Except Unit (List RowP) :=
  match p with
  | none => .ok []
  | some d =>
      if d.readings.isEmpty then .ok []
      else (exceptMap (processBucket st.stations_info) d.readings).map List.flatten

/-- Total number of per-station values carried by the payload's dictionary
reading buckets. -/
def totalDataPoints (p : Payload) : Nat :=
  match p with
  | none => 0
  | some d =>
      (d.readings.map fun e =>
        match e with
        | .nondict => 0
        | .dict r => r.data.length).sum

/-- Number of per-station values whose bucket timestamp parses to a real
timestamp.  Modelled from the spec: the spec-side count `count(readings
with valid timestamp)` used by the claimed conservation law (the code keeps
no such count). -/
def validTsReadingCount (p : Payload) : Nat :=
  match p with
  | none => 0
  | some d =>
      (d.readings.map fun e =>
        match e with
        | .nondict => 0
        | .dict r =>
            match r.timestamp.getD (r.time.getD .emptyStr) with
            | .valid _ => r.data.length
            | _ => 0).sum

/-! ### RainfallAnalyzer

The analyzer receives the canonical table (spec §3): every row has a parsed
timestamp and an `hour` column in `0..23`.  -/

/-- One canonical-table row as the analyzer sees it (the columns of the
processor's DataFrame, restricted to parsed timestamps). -/
structure Row where
  timestamp : Ts
  station_id : String
  station_name : String
  latitude : ℚ
  longitude : ℚ
  rainfall_mm : ℚ
  hour : Fin 24
deriving DecidableEq, Repr

/-- An internal analyzer row: a canonical row plus the `lat_group` /
`lon_group` columns that `get_top_rainfall_areas(group_nearby=True)` writes
into `self.data` (`none` = column value absent). -/
structure XRow where
  base : Row
  lat_group : Option ℚ
  lon_group : Option ℚ
deriving DecidableEq, Repr

/-- The `self.data` DataFrame owned by one `RainfallAnalyzer`. -/
abbrev AnalyzerData := List XRow

/-- `__init__`: `self.data = data.copy()` — a fresh frame holding the
caller's rows, with no grouping columns. -/
def analyzerInit (d : List Row) : AnalyzerData :=
  d.map fun r => ⟨r, none, none⟩

def baseData (d : AnalyzerData) : List Row :=
  d.map XRow.base

/-- Mean of a column, `sum/len` (pandas `mean`; only ever applied to
nonempty groups in the code paths modelled here). -/
def mean (l : List ℚ) : ℚ := l.sum / l.length

/-- Sample variance (`ddof=1`); `none` models pandas' `NaN` on groups of
size ≤ 1.  Pandas' `std` is its square root, which is irrational in
general; no claim depends on the square root itself, so the variance is
what the embedding stores. -/
def sampleVar (l : List ℚ) : Option ℚ :=
  if l.length ≤ 1 then none
  else some (((l.map fun x => (x - mean l) ^ 2).sum) / ((l.length : ℚ) - 1))

/-- Distinct key values of a frame, in order of first appearance. -/
def keyList {α κ : Type} [DecidableEq κ] (key : α → κ) (l : List α) :
    List κ :=
  (l.map key).dedup

/-- `groupby(key)`: one group per distinct key value.  (pandas orders the
groups by sorted key; every property proved below is invariant under group
order, so first-appearance order is used.) -/
def groupRows {α κ : Type} [DecidableEq κ] (key : α → κ) (l : List α) :
    List (κ × List α) :=
  (keyList key l).map fun k => (k, l.filter fun a => key a = k)

/-- Sort descending by a rational sort key (stable, as pandas `nlargest`
keeps earlier rows on ties). -/
def sortByDesc {α : Type} (f : α → ℚ) (l : List α) : List α :=
  List.insertionSort (fun a b => f b ≤ f a) l

/-- Sort ascending by a rational sort key. -/
def sortByAsc {α : Type} (f : α → ℚ) (l : List α) : List α :=
  List.insertionSort (fun a b => f a ≤ f b) l

/-- Per-station ranking row (`groupby(['station_id','station_name'])` with
sum/mean/count of rainfall and mean coordinates). -/
structure SRow where
  station_id : String
  station_name : String
  total_rainfall : ℚ
  avg_rainfall : ℚ
  reading_count : Nat
  latitude : ℚ
  longitude : ℚ
deriving DecidableEq, Repr

def stationKey (r : Row) : String × String := (r.station_id, r.station_name)

def stationAgg (rows : List Row) : List SRow :=
  (groupRows stationKey rows).map fun g =>
    { station_id := g.1.1
      station_name := g.1.2
      total_rainfall := (g.2.map Row.rainfall_mm).sum
      avg_rainfall := mean (g.2.map Row.rainfall_mm)
      reading_count := g.2.length
      latitude := mean (g.2.map Row.latitude)
      longitude := mean (g.2.map Row.longitude) }

/-- Coordinate-group ranking row (the `group_nearby=True` branch). -/
structure GRow where
  lat_group : ℚ
  lon_group : ℚ
  total_rainfall : ℚ
  avg_rainfall : ℚ
  reading_count : Nat
  station_name : String
  latitude : ℚ
  longitude : ℚ
deriving DecidableEq, Repr

/-- `round(x, 2)` in numpy/pandas: round half to even at two decimals
(the model works over exact decimals, where binary-float representation
noise does not arise). -/
def round2 (q : ℚ) : ℚ :=
  let x := q * 100
  let f := ⌊x⌋
  let r := x - (f : ℚ)
  let n : ℤ :=
    if r < 1 / 2 then f
    else if 1 / 2 < r then f + 1
    else if f % 2 = 0 then f else f + 1
  (n : ℚ) / 100

/-- `self.data['lat_group'] = self.data['latitude'].round(2)` (and the
same for longitude): the in-place column assignment. -/
def setGroupCols (r : XRow) : XRow :=
  { r with
    lat_group := some (round2 r.base.latitude)
    lon_group := some (round2 r.base.longitude) }

def groupColKey (r : XRow) : ℚ × ℚ := (r.lat_group.getD 0, r.lon_group.getD 0)

/-- `groupby(['lat_group','lon_group'])` aggregation of the nearby branch
(`station_name: 'first'`). -/
def coordAgg (d : AnalyzerData) : List GRow :=
  (groupRows groupColKey d).map fun g =>
    { lat_group := g.1.1
      lon_group := g.1.2
      total_rainfall := (g.2.map fun r => r.base.rainfall_mm).sum
      avg_rainfall := mean (g.2.map fun r => r.base.rainfall_mm)
      reading_count := g.2.length
      station_name := ((g.2.head?).map fun r => r.base.station_name).getD ""
      latitude := mean (g.2.map fun r => r.base.latitude)
      longitude := mean (g.2.map fun r => r.base.longitude) }

/-- Result of `get_top_rainfall_areas` (the empty guard returns a shapeless
`pd.DataFrame()`; the two branches return differently-shaped frames). -/
inductive TopOut where
  | emptyDf : TopOut
  | grouped : List GRow → TopOut
  | byStation : List SRow → TopOut
deriving DecidableEq, Repr

def TopOut.stationRows : TopOut → List SRow
  | .byStation r => r
  | _ => []

/-- `get_top_rainfall_areas(n, group_nearby)`: returns the ranking and the
analyzer's `self.data` after the call (the nearby branch mutates it by
adding the grouping columns). -/
def getTopRainfallAreas (n : Nat) (group_nearby : Bool) (d : AnalyzerData) :
    TopOut × AnalyzerData :=
  if d.isEmpty then (.emptyDf, d)
  else if group_nearby then
    let d2 := d.map setGroupCols
    (.grouped ((sortByDesc GRow.total_rainfall (coordAgg d2)).take n), d2)
  else
    (.byStation
      ((sortByDesc SRow.total_rainfall (stationAgg (baseData d))).take n), d)

/-- `get_lowest_rainfall_areas(n)` (reads only canonical columns; does not
mutate `self.data`). -/
def getLowestRainfallAreas (n : Nat) (d : AnalyzerData) : List SRow :=
  if d.isEmpty then []
  else (sortByAsc SRow.total_rainfall (stationAgg (baseData d))).take n

/-- Hourly-distribution row, sum/mean/count/std of rainfall per hour
(`svar_rainfall` is the squared std, see `sampleVar`). -/
structure HRow where
  hour : Fin 24
  total_rainfall : ℚ
  avg_rainfall : ℚ
  reading_count : Nat
  svar_rainfall : Option ℚ
deriving DecidableEq, Repr

def mkHRow (g : Fin 24 × List Row) : HRow :=
  { hour := g.1
    total_rainfall := (g.2.map Row.rainfall_mm).sum
    avg_rainfall := mean (g.2.map Row.rainfall_mm)
    reading_count := g.2.length
    svar_rainfall := sampleVar (g.2.map Row.rainfall_mm) }

/-- `get_hourly_distribution`: `groupby('hour')` then
`sort_values('hour')`. -/
def getHourlyDistribution (d : AnalyzerData) : List HRow :=
  if d.isEmpty then []
  else
    List.insertionSort (fun a b : HRow => a.hour ≤ b.hour)
      ((groupRows Row.hour (baseData d)).map mkHRow)

/-- The wall-clock `datetime.now()` month and year at call time, passed
explicitly to keep the embedding pure. -/
structure Now where
  month : Nat
  year : Nat
deriving DecidableEq, Repr

def inCurrentMonth (now : Now) (r : Row) : Bool :=
  r.timestamp.month == now.month && r.timestamp.year == now.year

/-- `get_monthly_average`. -/
def getMonthlyAverage (now : Now) (d : AnalyzerData) : ℚ :=
  if d.isEmpty then 0
  else
    let monthly := (baseData d).filter (inCurrentMonth now)
    if monthly.isEmpty then mean ((baseData d).map Row.rainfall_mm)
    else mean (monthly.map Row.rainfall_mm)

/-- Per-station means used by the alert computation
(`groupby(['station_id','station_name']).agg mean`). -/
structure MRow where
  station_id : String
  station_name : String
  rainfall_mm : ℚ
  latitude : ℚ
  longitude : ℚ
deriving DecidableEq, Repr

def stationMeans (rows : List Row) : List MRow :=
  (groupRows stationKey rows).map fun g =>
    { station_id := g.1.1
      station_name := g.1.2
      rainfall_mm := mean (g.2.map Row.rainfall_mm)
      latitude := mean (g.2.map Row.latitude)
      longitude := mean (g.2.map Row.longitude) }

/-- Alert row: a station mean exceeding threshold, with the attached
`threshold` and `excess_rainfall` columns. -/
structure ARow where
  station_id : String
  station_name : String
  rainfall_mm : ℚ
  latitude : ℚ
  longitude : ℚ
  threshold : ℚ
  excess_rainfall : ℚ
deriving DecidableEq, Repr

def mkARow (threshold : ℚ) (m : MRow) : ARow :=
  { station_id := m.station_id
    station_name := m.station_name
    rainfall_mm := m.rainfall_mm
    latitude := m.latitude
    longitude := m.longitude
    threshold := threshold
    excess_rainfall := m.rainfall_mm - threshold }

/-- `get_alert_areas(threshold_multiplier)`: threshold = monthly average ×
multiplier, strict `>` filter on station means, attach `threshold` and
`excess_rainfall`, sort descending by excess. -/
def getAlertAreas (mult : ℚ) (now : Now) (d : AnalyzerData) :
    List ARow × ℚ :=
  if d.isEmpty then ([], 0)
  else
    let threshold := getMonthlyAverage now d * mult
    let flagged :=
      (stationMeans (baseData d)).filter fun m => threshold < m.rainfall_mm
    (sortByDesc ARow.excess_rainfall (flagged.map (mkARow threshold)),
      threshold)

/-- Summary-statistics record (`std_rainfall` is stored squared, see
`sampleVar`; timestamps are compared chronologically via `Ts.key`). -/
def Ts.key (t : Ts) : Nat :=
  (((t.year * 13 + t.month) * 32 + t.day) * 24 + t.hour.val) * 60 + t.minute

def tsMin (l : List Ts) : Option Ts :=
  match l with
  | [] => none
  | x :: xs => some (xs.foldl (fun a b => if b.key < a.key then b else a) x)

def tsMax (l : List Ts) : Option Ts :=
  match l with
  | [] => none
  | x :: xs => some (xs.foldl (fun a b => if a.key < b.key then b else a) x)

def listMax (l : List ℚ) : ℚ :=
  match l with
  | [] => 0
  | x :: xs => xs.foldl max x

def listMin (l : List ℚ) : ℚ :=
  match l with
  | [] => 0
  | x :: xs => xs.foldl min x

structure Stats where
  total_stations : Nat
  total_readings : Nat
  avg_rainfall : ℚ
  max_rainfall : ℚ
  min_rainfall : ℚ
  svar_rainfall : Option ℚ
  zero_rainfall_readings : Nat
  time_range_start : Option Ts
  time_range_end : Option Ts
deriving DecidableEq, Repr

/-- `generate_summary_stats`: `{}` on an empty table is `none`. -/
def generateSummaryStats (d : AnalyzerData) : Option Stats :=
  if d.isEmpty then none
  else
    let rows := baseData d
    some
      { total_stations := (rows.map Row.station_id).dedup.length
        total_readings := rows.length
        avg_rainfall := mean (rows.map Row.rainfall_mm)
        max_rainfall := listMax (rows.map Row.rainfall_mm)
        min_rainfall := listMin (rows.map Row.rainfall_mm)
        svar_rainfall := sampleVar (rows.map Row.rainfall_mm)
        zero_rainfall_readings :=
          (rows.filter fun r => r.rainfall_mm == 0).length
        time_range_start := tsMin (rows.map Row.timestamp)
        time_range_end := tsMax (rows.map Row.timestamp) }

/-! ### Helper lemmas -/

lemma exceptMap_ok_length {α β : Type} {f : α → Except Unit β} :
    ∀ {l : List α} {out : List β}, exceptMap f l = .ok out →
      out.length = l.length := by
  intro l
  induction l with
  | nil => intro out h; simp [exceptMap] at h; simp [← h]
  | cons a t ih =>
      intro out h
      simp only [exceptMap] at h
      cases hfa : f a with
      | error e => rw [hfa] at h; exact absurd h (by simp)
      | ok b =>
          rw [hfa] at h
          cases ht : exceptMap f t with
          | error e => rw [ht] at h; exact absurd h (by simp [Except.map])
          | ok bs =>
              rw [ht] at h
              simp [Except.map] at h
              simp [← h, ih ht]

lemma exceptMap_ok_mem {α β : Type} {f : α → Except Unit β} :
    ∀ {l : List α} {out : List β}, exceptMap f l = .ok out →
      ∀ b ∈ out, ∃ a ∈ l, f a = .ok b := by
  intro l
  induction l with
  | nil => intro out h; simp [exceptMap] at h; subst h; simp
  | cons a t ih =>
      intro out h
      simp only [exceptMap] at h
      cases hfa : f a with
      | error e => rw [hfa] at h; exact absurd h (by simp)
      | ok b =>
          rw [hfa] at h
          cases ht : exceptMap f t with
          | error e => rw [ht] at h; exact absurd h (by simp [Except.map])
          | ok bs =>
              rw [ht] at h
              simp [Except.map] at h
              subst h
              intro x hx
              rcases List.mem_cons.mp hx with h1 | h2
              · exact ⟨a, by simp, by rw [hfa, h1]⟩
              · rcases ih ht x h2 with ⟨a2, ha2, hfa2⟩
                exact ⟨a2, by simp [ha2], hfa2⟩

lemma exceptMap_error_of_mem {α β : Type} {f : α → Except Unit β} :
    ∀ {l : List α} {a : α}, a ∈ l → f a = .error () →
      exceptMap f l = .error () := by
  intro l
  induction l with
  | nil => intro a h; simp at h
  | cons x t ih =>
      intro a ha hfa
      rcases List.mem_cons.mp ha with h1 | h2
      · subst h1; simp [exceptMap, hfa]
      · simp only [exceptMap]
        cases hfx : f x with
        | error e => rfl
        | ok b => rw [ih h2 hfa]; rfl

lemma exceptMap_map_ok {α β γ : Type} {g : α → β} {f : β → Except Unit γ}
    {h : α → γ} (hfg : ∀ a, f (g a) = .ok (h a)) (l : List α) :
    exceptMap f (l.map g) = .ok (l.map h) := by
  induction l with
  | nil => rfl
  | cons a t ih => simp [exceptMap, hfg a, ih, Except.map]

lemma keyList_nodup {α κ : Type} [DecidableEq κ] (key : α → κ) (l : List α) :
    (keyList key l).Nodup :=
  List.nodup_dedup _

lemma mem_keyList {α κ : Type} [DecidableEq κ] {key : α → κ} {l : List α}
    {k : κ} : k ∈ keyList key l ↔ ∃ a ∈ l, key a = k := by
  simp [keyList, List.mem_dedup, List.mem_map]

lemma groupRows_map_fst {α κ : Type} [DecidableEq κ] (key : α → κ)
    (l : List α) : (groupRows key l).map Prod.fst = keyList key l := by
  simp [groupRows, List.map_map, Function.comp_def]

lemma mem_groupRows {α κ : Type} [DecidableEq κ] {key : α → κ} {l : List α}
    {g : κ × List α} (h : g ∈ groupRows key l) :
    g.1 ∈ keyList key l ∧ g.2 = l.filter fun a => key a = g.1 := by
  simp only [groupRows, List.mem_map] at h
  rcases h with ⟨k, hk, hg⟩
  subst hg
  exact ⟨hk, rfl⟩

lemma sum_groups {α κ : Type} [DecidableEq κ] (key : α → κ) (f : α → ℚ) :
    ∀ (ks : List κ), ks.Nodup → ∀ l : List α, (∀ a ∈ l, key a ∈ ks) →
      (ks.map fun k => ((l.filter fun a => key a = k).map f).sum).sum =
        (l.map f).sum := by
  intro ks
  induction ks with
  | nil =>
      intro _ l hl
      have : l = [] := by
        cases l with
        | nil => rfl
        | cons a t => exact absurd (hl a (by simp)) (by simp)
      simp [this]
  | cons k ks ih =>
      intro hnd l hl
      have hsplit :
          (l.map f).sum =
            ((l.filter fun a => key a = k).map f).sum +
              ((l.filter fun a => ¬ key a = k).map f).sum := by
        have hperm :
            ((l.filter fun a => key a = k) ++
              l.filter fun a => ¬ key a = k).Perm l := by
          simpa using List.filter_append_perm (fun a => decide (key a = k)) l
        calc (l.map f).sum
            = (((l.filter fun a => key a = k) ++
                (l.filter fun a => ¬ key a = k)).map f).sum :=
              (List.Perm.sum_eq (List.Perm.map f hperm)).symm
          _ = _ := by simp
      set l2 := l.filter fun a => ¬ key a = k with hl2
      have htail :
          ∀ k' ∈ ks,
            (l.filter fun a => key a = k') = l2.filter fun a => key a = k' := by
        intro k' hk'
        have hkk : k' ≠ k := fun h => (List.nodup_cons.mp hnd).1 (h ▸ hk')
        rw [hl2, List.filter_filter]
        apply List.filter_congr
        intro a _
        by_cases h : key a = k'
        · simp [h, hkk]
        · simp [h]
      have hcov : ∀ a ∈ l2, key a ∈ ks := by
        intro a ha
        rw [hl2] at ha
        have hmem := List.mem_of_mem_filter ha
        have hne : ¬ key a = k := by
          have := List.of_mem_filter ha
          simpa using this
        rcases List.mem_cons.mp (hl a hmem) with h1 | h2
        · exact absurd h1 hne
        · exact h2
      have hks :
          (ks.map fun k' => ((l.filter fun a => key a = k').map f).sum) =
            ks.map fun k' => ((l2.filter fun a => key a = k').map f).sum := by
        apply List.map_congr_left
        intro k' hk'
        rw [htail k' hk']
      rw [List.map_cons, List.sum_cons, hks,
        ih (List.nodup_cons.mp hnd).2 l2 hcov, hsplit]

lemma sorted_sortByDesc {α : Type} (f : α → ℚ) (l : List α) :
    List.Sorted (fun a b => f b ≤ f a) (sortByDesc f l) :=
  @List.sorted_insertionSort α (fun a b => f b ≤ f a) _
    ⟨fun a b => le_total (f b) (f a)⟩
    ⟨fun _ _ _ h1 h2 => le_trans h2 h1⟩ l

lemma perm_sortByDesc {α : Type} (f : α → ℚ) (l : List α) :
    (sortByDesc f l).Perm l :=
  List.perm_insertionSort _ l

lemma perm_sortByAsc {α : Type} (f : α → ℚ) (l : List α) :
    (sortByAsc f l).Perm l :=
  List.perm_insertionSort _ l

lemma isEmpty_map {α β : Type} (g : α → β) (l : List α) :
    (l.map g).isEmpty = l.isEmpty := by
  cases l <;> rfl

lemma baseData_map_setGroupCols (d : AnalyzerData) :
    baseData (d.map setGroupCols) = baseData d := by
  simp [baseData, List.map_map]
  exact fun a _ => rfl

/-! ### Processor lemmas -/

lemma processStationsLoop_error_of_nondict :
    ∀ (entries : List RawStationEntry) (m : StationsInfo),
      .nondict ∈ entries → (processStationsLoop entries m).2 = .error () := by
  intro entries
  induction entries with
  | nil => intro m h; simp at h
  | cons e t ih =>
      intro m h
      cases e with
      | nondict => rfl
      | dict s =>
          have ht : RawStationEntry.nondict ∈ t := by
            rcases List.mem_cons.mp h with h1 | h2
            · exact absurd h1 (by simp)
            · exact h2
          simpa [processStationsLoop] using
            ih (StationsInfo.insert m (extractStationInfo s).1
              (extractStationInfo s).2) ht

lemma processStationsLoop_ok_of_all_dict :
    ∀ (entries : List RawStationEntry) (m : StationsInfo),
      (∀ e ∈ entries, e ≠ .nondict) →
      (processStationsLoop entries m).2 = .ok () := by
  intro entries
  induction entries with
  | nil => intro m _; rfl
  | cons e t ih =>
      intro m h
      cases e with
      | nondict => exact absurd rfl (h .nondict (by simp))
      | dict s =>
          simpa [processStationsLoop] using
            ih (StationsInfo.insert m (extractStationInfo s).1
              (extractStationInfo s).2) fun e he => h e (by simp [he])

/-- Station identifiers inserted for the dictionary entries of a station
list. -/
def entryStationIds (entries : List RawStationEntry) : List String :=
  entries.filterMap fun e =>
    match e with
    | .dict s => some (extractStationId s)
    | .nondict => none

def payloadStationIds (p : Payload) : List String :=
  match p with
  | none => []
  | some d => entryStationIds d.stations

lemma processStationsLoop_preserve :
    ∀ (entries : List RawStationEntry) (m : StationsInfo) (k : String),
      k ∉ entryStationIds entries → (processStationsLoop entries m).1 k = m k := by
  intro entries
  induction entries with
  | nil => intro m k _; rfl
  | cons e t ih =>
      intro m k h
      cases e with
      | nondict =>
          have ht : k ∉ entryStationIds t := by
            simpa [entryStationIds] using h
          rfl
      | dict s =>
          have hcons :
              entryStationIds (.dict s :: t) =
                extractStationId s :: entryStationIds t := rfl
          rw [hcons] at h
          have hne : k ≠ extractStationId s := fun hk => h (by simp [hk])
          have ht : k ∉ entryStationIds t := fun hk => h (by simp [hk])
          have : (processStationsLoop (.dict s :: t) m).1 =
              (processStationsLoop t
                (m.insert (extractStationInfo s).1 (extractStationInfo s).2)).1 := rfl
          rw [this, ih _ k ht]
          simp [StationsInfo.insert, extractStationInfo, hne]

lemma processStations_state_of_cons (d : PayloadData) (st : ProcState)
    (a : RawStationEntry) (t : List RawStationEntry) (hs : d.stations = a :: t) :
    ((processStations (some d) st).1).stations_info =
      (processStationsLoop d.stations st.stations_info).1 := by
  simp only [processStations, hs, List.isEmpty_cons, if_neg]
  rcases h2 : processStationsLoop (a :: t) st.stations_info with ⟨m2, r2⟩
  cases r2 with
  | ok u => cases u; rfl
  | error e => rfl

lemma processStations_preserve (p : Payload) (st : ProcState) (k : String)
    (h : k ∉ payloadStationIds p) :
    ((processStations p st).1).stations_info k = st.stations_info k := by
  cases p with
  | none => rfl
  | some d =>
      cases hs : d.stations with
      | nil => simp [processStations, hs]
      | cons a t =>
          rw [processStations_state_of_cons d st a t hs]
          refine processStationsLoop_preserve d.stations st.stations_info k ?_
          simpa [payloadStationIds, hs] using h

lemma processBucket_missingTs (m : StationsInfo)
    (dps : List RawDataPointEntry) {rows : List RowP}
    (h : processBucket m (.dict ⟨none, none, dps⟩) = .ok rows) :
    ∀ r ∈ rows, r.timestamp = TsV.nat := by
  intro r hr
  have h2 : exceptMap (processDataPoint m .emptyStr) dps = .ok rows := h
  rcases exceptMap_ok_mem h2 r hr with ⟨e, _, he⟩
  cases e with
  | nondict => exact absurd he (by simp [processDataPoint])
  | dict dp =>
      simp [processDataPoint, pdToDatetime, Except.map] at he
      rw [← he]
      rfl

lemma processBucket_invalidTs (m : StationsInfo) (r : RawReading)
    (h1 : r.timestamp.getD (r.time.getD .emptyStr) = .invalid)
    (h2 : r.data ≠ []) : processBucket m (.dict r) = .error () := by
  cases hd : r.data with
  | nil => exact absurd hd h2
  | cons a t =>
      show exceptMap (processDataPoint m (r.timestamp.getD (r.time.getD .emptyStr)))
        r.data = .error ()
      rw [h1, hd]
      cases a <;> simp [exceptMap, processDataPoint, pdToDatetime, Except.map]

lemma exceptMap_buckets_length (m : StationsInfo) :
    ∀ (readings : List RawReadingEntry) (lists : List (List RowP)),
      exceptMap (processBucket m) readings = .ok lists →
      lists.flatten.length =
        (readings.map fun e =>
          match e with
          | .nondict => 0
          | .dict r => r.data.length).sum := by
  intro readings
  induction readings with
  | nil => intro lists h; simp [exceptMap] at h; subst h; simp
  | cons e t ih =>
      intro lists h
      simp only [exceptMap] at h
      cases hfe : processBucket m e with
      | error u => rw [hfe] at h; exact absurd h (by simp)
      | ok l1 =>
          rw [hfe] at h
          cases ht : exceptMap (processBucket m) t with
          | error u => rw [ht] at h; exact absurd h (by simp [Except.map])
          | ok ls =>
              rw [ht] at h
              simp [Except.map] at h
              subst h
              cases e with
              | nondict => exact absurd hfe (by simp [processBucket])
              | dict r =>
                  have hl1 : l1.length = r.data.length :=
                    exceptMap_ok_length hfe
                  simp [List.flatten, hl1, ih ls ht]

lemma processReadings_ok_length {p : Payload} {st : ProcState}
    {rows : List RowP} (h : processReadings p st = .ok rows) :
    rows.length = totalDataPoints p := by
  cases p with
  | none =>
      simp [processReadings] at h
      simp [← h, totalDataPoints]
  | some d =>
      cases hr : d.readings with
      | nil =>
          simp [processReadings, hr] at h
          simp [← h, totalDataPoints, hr]
      | cons a t =>
          simp only [processReadings, hr, List.isEmpty_cons, if_neg] at h
          cases hm : exceptMap (processBucket st.stations_info) (a :: t) with
          | error u => rw [hm] at h; exact absurd h (by simp [Except.map])
          | ok lists =>
              rw [hm] at h
              simp [Except.map] at h
              rw [← hr] at hm
              rw [← h, totalDataPoints]
              exact exceptMap_buckets_length st.stations_info d.readings lists hm

/-! ### Concrete inputs used by counterexamples and witnesses -/

def dpA : RawDataPointEntry := .dict ⟨some "A", none, none, some 5, none⟩

def payloadMissingTs : Payload := some ⟨[], [.dict ⟨none, none, [dpA]⟩]⟩

def payloadBadTs : Payload :=
  some ⟨[], [.dict ⟨some .invalid, none, [dpA]⟩]⟩

def stationS9 : RawStationEntry :=
  .dict ⟨some "S9", none, some "Nine", none, none, none⟩

def payloadBadStation : Payload := some ⟨[.nondict, stationS9], []⟩

def payloadOnlyS9 : Payload := some ⟨[stationS9], []⟩

def hr1 : Fin 24 := ⟨1, by decide⟩

def hr2 : Fin 24 := ⟨2, by decide⟩

def rowOf (sid : String) (q : ℚ) (h : Fin 24) : Row :=
  { timestamp := ⟨2025, 5, 10, h, 0⟩
    station_id := sid
    station_name := sid
    latitude := 13 / 10
    longitude := 2
    rainfall_mm := q
    hour := h }

def now0 : Now := ⟨5, 2025⟩

/-- Four readings, two stations: monthly average 2, station `A` mean 3.5,
station `B` mean 0.5. -/
def tblAlert : AnalyzerData :=
  analyzerInit [rowOf "A" 3 hr1, rowOf "A" 4 hr2, rowOf "B" 1 hr1,
    rowOf "B" 0 hr2]

/-! ### Claims -/

/-- C1, counterexample: a payload whose single reading bucket has no
timestamp key.  The spec's conservation law `count(readings with valid
timestamp) == count(rows)` fails (0 valid timestamps but 1 row), the
reading is retained with a null (`NaT`) timestamp rather than dropped, and
no error is counted anywhere; moreover a bucket with an unparsable nonempty
timestamp aborts the whole pass instead of being dropped. -/
theorem c1_counterexample :
    validTsReadingCount payloadMissingTs = 0 ∧
    (processReadings payloadMissingTs procInit).map (List.map RowP.timestamp) =
      .ok [TsV.nat] ∧
    (processReadings payloadMissingTs procInit).map List.length = .ok 1 ∧
    processReadings payloadBadTs procInit = .error () :=
  ⟨rfl, rfl, rfl, rfl⟩

/-- C1 (amended): a reading bucket with a missing timestamp gets the
empty-string default, which `pd.to_datetime` turns into `NaT`, and all its
readings are retained with that null timestamp; a bucket with a nonempty
unparsable timestamp and at least one data point raises, aborting the whole
pass (there is no error collection); and whenever `process_readings`
succeeds, the table has exactly one row per per-station value, parseable
timestamp or not. -/
theorem c1_timestamp_policy :
    (∀ (m : StationsInfo) (dps : List RawDataPointEntry) (rows : List RowP),
        processBucket m (.dict ⟨none, none, dps⟩) = .ok rows →
        ∀ r ∈ rows, r.timestamp = TsV.nat) ∧
    (∀ (m : StationsInfo) (r : RawReading),
        r.timestamp.getD (r.time.getD .emptyStr) = .invalid → r.data ≠ [] →
        processBucket m (.dict r) = .error ()) ∧
    (∀ (p : Payload) (st : ProcState) (rows : List RowP),
        processReadings p st = .ok rows → rows.length = totalDataPoints p) :=
  ⟨fun m dps rows h => processBucket_missingTs m dps h,
   fun m r h1 h2 => processBucket_invalidTs m r h1 h2,
   fun _ _ _ h => processReadings_ok_length h⟩

theorem c1_timestamp_policy_witness :
    processBucket procInit.stations_info
        (.dict ⟨some .invalid, none, [dpA]⟩) = .error () :=
  c1_timestamp_policy.2.1 procInit.stations_info
    ⟨some .invalid, none, [dpA]⟩ rfl (by decide)

/-- C2, counterexample: a stations list whose first entry is not a
dictionary.  `process_stations` raises (`AttributeError` at `.get`) and
aborts: the well-formed station `S9` after it is never processed, and
nothing is recorded in any errors collection (none exists). -/
theorem c2_counterexample :
    (processStations payloadBadStation procInit).2 = .error () ∧
    ((processStations payloadBadStation procInit).1).stations_info "S9" =
      none :=
  ⟨rfl, rfl⟩

/-- C2 (amended): a station or reading list entry that is not a dictionary
raises and aborts the whole pass — processing of the remaining entries does
NOT continue and there is no returned errors collection; stations inserted
before the malformed entry do remain in the station map; dictionary entries
with missing fields are defaulted, never skipped. -/
theorem c2_malformed_policy :
    (∀ (d : PayloadData) (st : ProcState), .nondict ∈ d.stations →
        (processStations (some d) st).2 = .error ()) ∧
    (∀ (s : RawStation) (rest : List RawStationEntry) (m : StationsInfo),
        (processStationsLoop (.dict s :: .nondict :: rest) m).1 =
          m.insert (extractStationInfo s).1 (extractStationInfo s).2) ∧
    (∀ (d : PayloadData) (st : ProcState),
        (∀ e ∈ d.stations, e ≠ .nondict) →
        (processStations (some d) st).2 = .ok d.stations) ∧
    (∀ (d : PayloadData) (st : ProcState), .nondict ∈ d.readings →
        processReadings (some d) st = .error ()) := by
  refine ⟨?_, fun s rest m => rfl, ?_, ?_⟩
  · intro d st h
    have hne : d.stations ≠ [] := by
      intro he; rw [he] at h; simp at h
    cases hs : d.stations with
    | nil => exact absurd hs hne
    | cons a t =>
        have herr := processStationsLoop_error_of_nondict d.stations
          st.stations_info h
        simp only [processStations, hs, List.isEmpty_cons, if_neg]
        rw [← hs]
        rcases h2 : processStationsLoop d.stations st.stations_info with ⟨m2, r2⟩
        rw [h2] at herr
        cases r2 with
        | ok u => exact absurd herr (by simp)
        | error e => rfl
  · intro d st h
    cases hs : d.stations with
    | nil => simp [processStations, hs]
    | cons a t =>
        have hok := processStationsLoop_ok_of_all_dict d.stations
          st.stations_info h
        simp only [processStations, hs, List.isEmpty_cons, if_neg]
        rw [← hs]
        rcases h2 : processStationsLoop d.stations st.stations_info with ⟨m2, r2⟩
        rw [h2] at hok
        cases r2 with
        | ok u => cases u; rfl
        | error e => exact absurd hok (by simp)
  · intro d st h
    have hne : d.readings ≠ [] := by
      intro he; rw [he] at h; simp at h
    cases hs : d.readings with
    | nil => exact absurd hs hne
    | cons a t =>
        simp only [processReadings, hs, List.isEmpty_cons, if_neg]
        rw [← hs]
        have : exceptMap (processBucket st.stations_info) d.readings =
            .error () :=
          exceptMap_error_of_mem h rfl
        rw [this]
        rfl

theorem c2_malformed_policy_witness :
    (processStations payloadOnlyS9 procInit).2 =
      .ok (payloadOnlyS9.getD ⟨[], []⟩).stations :=
  c2_malformed_policy.2.2.1 (payloadOnlyS9.getD ⟨[], []⟩) procInit
    (by decide)

/-- C10: the station-lookup side table accumulates across calls: an
identifier absent from a later payload keeps the value some earlier
`process_stations` call inserted; `process_readings` resolves every data
point against whatever the accumulated map currently holds, so a reading in
a later payload silently joins to station metadata from an earlier
payload. -/
theorem c10_station_table_accumulates :
    (∀ (p : Payload) (st : ProcState) (k : String),
        k ∉ payloadStationIds p →
        ((processStations p st).1).stations_info k = st.stations_info k) ∧
    (∀ (m : StationsInfo) (t : Ts) (dp : RawDataPoint) (i : StationInfo),
        m (extractDpStationId dp) = some i →
        processDataPoint m (.valid t) (.dict dp) =
          .ok { timestamp := .ts t
                station_id := extractDpStationId dp
                station_name := i.name
                latitude := i.latitude
                longitude := i.longitude
                rainfall_mm := extractDpValue dp
                hour := some t.hour
                date := some (t.year, t.month, t.day) }) ∧
    (∀ (p1 p2 : Payload) (st0 : ProcState) (k : String) (i : StationInfo),
        ((processStations p1 st0).1).stations_info k = some i →
        k ∉ payloadStationIds p2 →
        ((processStations p2 (processStations p1 st0).1).1).stations_info k =
          some i) := by
  refine ⟨fun p st k h => processStations_preserve p st k h, ?_, ?_⟩
  · intro m t dp i hmi
    simp [processDataPoint, pdToDatetime, Except.map, mkRowP, hmi, TsV.hourF,
      TsV.dateF]
  · intro p1 p2 st0 k i h1 h2
    rw [processStations_preserve p2 _ k h2, h1]

theorem c10_station_table_accumulates_witness :
    ((processStations payloadMissingTs
        (processStations payloadOnlyS9 procInit).1).1).stations_info "S9" =
      some ⟨"Nine", 0, 0⟩ :=
  c10_station_table_accumulates.2.2 payloadOnlyS9 payloadMissingTs procInit
    "S9" ⟨"Nine", 0, 0⟩ rfl (by decide)

/-- C3: every aggregation operation applied to the empty canonical table
returns its empty or neutral result (`pd.DataFrame()`, `0`, `([], 0)` or
`{}`) via the explicit `self.data.empty` guards, and — all operations being
total functions of the table in this embedding — none raises for any table
state. -/
theorem c3_empty_table_neutral :
    (∀ (n : Nat) (g : Bool),
        getTopRainfallAreas n g ([] : AnalyzerData) = (.emptyDf, [])) ∧
    (∀ n : Nat, getLowestRainfallAreas n [] = []) ∧
    getHourlyDistribution [] = [] ∧
    (∀ now : Now, getMonthlyAverage now [] = 0) ∧
    (∀ (mult : ℚ) (now : Now), getAlertAreas mult now [] = ([], 0)) ∧
    generateSummaryStats [] = none :=
  ⟨fun _ _ => rfl, fun _ => rfl, rfl, fun _ => rfl, fun _ _ => rfl, rfl⟩

/-- C5: on a nonempty table the monthly average is the mean `rainfall_mm`
over exactly the rows whose timestamp month and year match the wall-clock
month and year at call time (passed explicitly as `now`), falling back to
the mean over the whole table when no row matches. -/
theorem c5_monthly_average (now : Now) (d : AnalyzerData) (h : d ≠ []) :
    getMonthlyAverage now d =
      if ((baseData d).filter (inCurrentMonth now)).isEmpty then
        mean ((baseData d).map Row.rainfall_mm)
      else
        mean (((baseData d).filter (inCurrentMonth now)).map Row.rainfall_mm)
    := by
  have hne : d.isEmpty = false := by
    cases d with
    | nil => exact absurd rfl h
    | cons a t => rfl
  simp [getMonthlyAverage, hne]

theorem c5_monthly_average_witness :
    getMonthlyAverage now0 tblAlert =
      if ((baseData tblAlert).filter (inCurrentMonth now0)).isEmpty then
        mean ((baseData tblAlert).map Row.rainfall_mm)
      else
        mean (((baseData tblAlert).filter (inCurrentMonth now0)).map
          Row.rainfall_mm) :=
  c5_monthly_average now0 tblAlert (by decide)

lemma tblAlert_groups :
    groupRows stationKey (baseData tblAlert) =
      [(("A", "A"), [rowOf "A" 3 hr1, rowOf "A" 4 hr2]),
       (("B", "B"), [rowOf "B" 1 hr1, rowOf "B" 0 hr2])] := by
  rfl

lemma tblAlert_means :
    stationMeans (baseData tblAlert) =
      [⟨"A", "A", 7 / 2, 13 / 10, 2⟩, ⟨"B", "B", 1 / 2, 13 / 10, 2⟩] := by
  rw [stationMeans, tblAlert_groups]
  norm_num [mean, rowOf]

lemma tblAlert_monthly : getMonthlyAverage now0 tblAlert = 2 := by
  rw [getMonthlyAverage]
  norm_num [tblAlert, analyzerInit, baseData, rowOf, now0, inCurrentMonth,
    mean, List.filter]

/-- C4: on a nonempty table the alert operation uses threshold = monthly
average × multiplier, flags exactly the station means strictly above the
threshold, attaches `threshold` and `excess_rainfall = mean − threshold` to
each flagged row, and sorts descending by excess; on the empty table it
returns `([], 0)`; and on the concrete table with monthly average 2 and
multiplier 1.5 the threshold is 3 and station `A` (mean 3.5) is flagged
with excess 0.5. -/
theorem c4_alert_areas :
    (∀ (mult : ℚ) (now : Now), getAlertAreas mult now [] = ([], 0)) ∧
    (∀ (mult : ℚ) (now : Now) (d : AnalyzerData), d ≠ [] →
        (getAlertAreas mult now d).2 = getMonthlyAverage now d * mult ∧
        ((getAlertAreas mult now d).1).Perm
          (((stationMeans (baseData d)).filter fun m =>
              getMonthlyAverage now d * mult < m.rainfall_mm).map
            (mkARow (getMonthlyAverage now d * mult))) ∧
        (∀ a ∈ (getAlertAreas mult now d).1,
            a.threshold = getMonthlyAverage now d * mult ∧
            a.excess_rainfall = a.rainfall_mm - a.threshold) ∧
        List.Sorted (fun a b : ARow => b.excess_rainfall ≤ a.excess_rainfall)
          (getAlertAreas mult now d).1) ∧
    ((getAlertAreas (3 / 2) now0 tblAlert).2 = 3 ∧
      (getAlertAreas (3 / 2) now0 tblAlert).1.map ARow.station_id = ["A"] ∧
      (getAlertAreas (3 / 2) now0 tblAlert).1.map ARow.rainfall_mm = [7 / 2] ∧
      (getAlertAreas (3 / 2) now0 tblAlert).1.map ARow.excess_rainfall =
        [1 / 2]) := by
  refine ⟨fun _ _ => rfl, ?_, ?_⟩
  case refine_2 =>
    have hne : tblAlert.isEmpty = false := rfl
    rw [getAlertAreas]
    norm_num [hne, tblAlert_monthly, tblAlert_means, mkARow, sortByDesc,
      List.insertionSort, List.orderedInsert]
  intro mult now d h
  have hne : d.isEmpty = false := by
    cases d with
    | nil => exact absurd rfl h
    | cons a t => rfl
  refine ⟨by simp [getAlertAreas, hne], ?_, ?_, ?_⟩
  · simp only [getAlertAreas, hne, Bool.false_eq_true, if_false]
    exact perm_sortByDesc _ _
  · intro a ha
    simp only [getAlertAreas, hne, Bool.false_eq_true, if_false] at ha
    have := (perm_sortByDesc ARow.excess_rainfall _).mem_iff.mp ha
    rcases List.mem_map.mp this with ⟨mrow, _, hm⟩
    rw [← hm]
    exact ⟨rfl, rfl⟩
  · simp only [getAlertAreas, hne, Bool.false_eq_true, if_false]
    exact sorted_sortByDesc _ _

theorem c4_alert_areas_witness :
    (getAlertAreas 1 now0 tblAlert).2 = getMonthlyAverage now0 tblAlert * 1 :=
  (c4_alert_areas.2.1 1 now0 tblAlert (by decide)).1

lemma sorted_hourlySort (l : List HRow) :
    List.Sorted (fun a b : HRow => a.hour ≤ b.hour)
      (List.insertionSort (fun a b : HRow => a.hour ≤ b.hour) l) :=
  @List.sorted_insertionSort HRow (fun a b => a.hour ≤ b.hour) _
    ⟨fun a b => le_total a.hour b.hour⟩
    ⟨fun _ _ _ h1 h2 => le_trans h1 h2⟩ l

lemma hourlyRaw_map_hour (rows : List Row) :
    ((groupRows Row.hour rows).map mkHRow).map HRow.hour =
      keyList Row.hour rows := by
  rw [List.map_map]
  have hc : HRow.hour ∘ mkHRow = Prod.fst := funext fun g => rfl
  rw [hc, groupRows_map_fst]

lemma stationAgg_map_key (rows : List Row) :
    (stationAgg rows).map (fun s => (s.station_id, s.station_name)) =
      keyList stationKey rows := by
  rw [stationAgg, List.map_map, ← groupRows_map_fst stationKey rows]
  exact List.map_congr_left fun g _ => rfl

/-- C6: the hourly distribution is sorted ascending by hour, has one row
per hour value present in the data with no zero-filling (hence at most 24
rows), conserves total rainfall, and each row carries the sum, mean, count
and sample standard deviation (stored squared) of its hour group. -/
theorem c6_hourly_distribution (d : AnalyzerData) :
    List.Sorted (fun a b : HRow => a.hour ≤ b.hour)
      (getHourlyDistribution d) ∧
    ((getHourlyDistribution d).map HRow.hour).Nodup ∧
    (∀ h : Fin 24,
        h ∈ (getHourlyDistribution d).map HRow.hour ↔
          h ∈ (baseData d).map Row.hour) ∧
    (getHourlyDistribution d).length ≤ 24 ∧
    ((getHourlyDistribution d).map HRow.total_rainfall).sum =
      ((baseData d).map Row.rainfall_mm).sum ∧
    (∀ hr ∈ getHourlyDistribution d,
        hr.total_rainfall =
          (((baseData d).filter fun r => r.hour = hr.hour).map
            Row.rainfall_mm).sum ∧
        hr.avg_rainfall =
          mean (((baseData d).filter fun r => r.hour = hr.hour).map
            Row.rainfall_mm) ∧
        hr.reading_count =
          ((baseData d).filter fun r => r.hour = hr.hour).length ∧
        hr.svar_rainfall =
          sampleVar (((baseData d).filter fun r => r.hour = hr.hour).map
            Row.rainfall_mm)) := by
  by_cases hd : d.isEmpty
  · have hnil : d = [] := by
      cases d with
      | nil => rfl
      | cons a t => exact absurd hd (by simp)
    subst hnil
    refine ⟨by simp [getHourlyDistribution], by simp [getHourlyDistribution],
      ?_, by simp [getHourlyDistribution], by simp [getHourlyDistribution, baseData],
      by simp [getHourlyDistribution]⟩
    intro h
    simp [getHourlyDistribution, baseData]
  · have hG : getHourlyDistribution d =
        List.insertionSort (fun a b : HRow => a.hour ≤ b.hour)
          ((groupRows Row.hour (baseData d)).map mkHRow) := by
      simp [getHourlyDistribution, hd]
    have hperm : (getHourlyDistribution d).Perm
        ((groupRows Row.hour (baseData d)).map mkHRow) := by
      rw [hG]; exact List.perm_insertionSort _ _
    have hpermhours :
        ((getHourlyDistribution d).map HRow.hour).Perm
          (keyList Row.hour (baseData d)) := by
      have := hperm.map HRow.hour
      rwa [hourlyRaw_map_hour] at this
    have hnodup : ((getHourlyDistribution d).map HRow.hour).Nodup :=
      hpermhours.nodup_iff.mpr (keyList_nodup _ _)
    refine ⟨by rw [hG]; exact sorted_hourlySort _, hnodup, ?_, ?_, ?_, ?_⟩
    · intro h
      rw [hpermhours.mem_iff, mem_keyList]
      simp [List.mem_map]
    · calc (getHourlyDistribution d).length
          = ((getHourlyDistribution d).map HRow.hour).length :=
            (List.length_map _ _).symm
        _ ≤ Fintype.card (Fin 24) := hnodup.length_le_card
        _ = 24 := Fintype.card_fin 24
    · have hsum := (hperm.map HRow.total_rainfall).sum_eq
      rw [hsum, List.map_map]
      have hc : HRow.total_rainfall ∘ mkHRow = fun g : Fin 24 × List Row =>
          ((g.2.map Row.rainfall_mm).sum) := funext fun g => rfl
      rw [hc, groupRows, List.map_map]
      exact sum_groups Row.hour Row.rainfall_mm (keyList Row.hour (baseData d))
        (keyList_nodup _ _) (baseData d)
        fun a ha => mem_keyList.mpr ⟨a, ha, rfl⟩
    · intro hr hmem
      have : hr ∈ (groupRows Row.hour (baseData d)).map mkHRow :=
        hperm.mem_iff.mp hmem
      rcases List.mem_map.mp this with ⟨g, hg, hmk⟩
      rcases mem_groupRows hg with ⟨-, hg2⟩
      subst hmk
      have hh : (mkHRow g).hour = g.1 := rfl
      simp only [hh]
      rw [← hg2]
      exact ⟨rfl, rfl, rfl, rfl⟩

lemma tblAlert_agg :
    stationAgg (baseData tblAlert) =
      [⟨"A", "A", 7, 7 / 2, 2, 13 / 10, 2⟩,
       ⟨"B", "B", 1, 1 / 2, 2, 13 / 10, 2⟩] := by
  rw [stationAgg, tblAlert_groups]
  norm_num [mean, rowOf]

/-- C9: with `group_nearby` disabled and `n` at least the number of station
groups, the top-`n` and bottom-`n` rankings each enumerate every station
group exactly once, so their union covers all groups exactly once. -/
theorem c9_top_bottom_complement (n : Nat) (d : AnalyzerData)
    (hdist : (stationAgg (baseData d)).Pairwise
        fun a b => a.total_rainfall ≠ b.total_rainfall)
    (hn : (stationAgg (baseData d)).length ≤ n) :
    (∀ k : String × String,
        (k ∈ (((getTopRainfallAreas n false d).1).stationRows).map
            (fun s => (s.station_id, s.station_name)) ∨
         k ∈ (getLowestRainfallAreas n d).map
            fun s => (s.station_id, s.station_name)) ↔
        k ∈ (baseData d).map stationKey) ∧
    ((((getTopRainfallAreas n false d).1).stationRows).map
        (fun s => (s.station_id, s.station_name))).Nodup ∧
    ((getLowestRainfallAreas n d).map
        (fun s => (s.station_id, s.station_name))).Nodup := by
  clear hdist
  by_cases hd : d.isEmpty
  · have hnil : d = [] := by
      cases d with
      | nil => rfl
      | cons a t => exact absurd hd (by simp)
    subst hnil
    refine ⟨?_, by simp [getTopRainfallAreas, TopOut.stationRows],
      by simp [getLowestRainfallAreas]⟩
    intro k
    simp [getTopRainfallAreas, getLowestRainfallAreas, TopOut.stationRows,
      baseData]
  · have htop : ((getTopRainfallAreas n false d).1).stationRows =
        sortByDesc SRow.total_rainfall (stationAgg (baseData d)) := by
      simp only [getTopRainfallAreas, hd, Bool.false_eq_true, if_false,
        TopOut.stationRows]
      exact List.take_of_length_le
        (le_trans (le_of_eq (perm_sortByDesc _ _).length_eq) hn)
    have hbot : getLowestRainfallAreas n d =
        sortByAsc SRow.total_rainfall (stationAgg (baseData d)) := by
      simp only [getLowestRainfallAreas, hd, Bool.false_eq_true, if_false]
      exact List.take_of_length_le
        (le_trans (le_of_eq (perm_sortByAsc _ _).length_eq) hn)
    have htopperm :
        ((((getTopRainfallAreas n false d).1).stationRows).map
            (fun s => (s.station_id, s.station_name))).Perm
          (keyList stationKey (baseData d)) := by
      rw [htop, ← stationAgg_map_key]
      exact (perm_sortByDesc _ _).map _
    have hbotperm :
        ((getLowestRainfallAreas n d).map
            (fun s => (s.station_id, s.station_name))).Perm
          (keyList stationKey (baseData d)) := by
      rw [hbot, ← stationAgg_map_key]
      exact (perm_sortByAsc _ _).map _
    refine ⟨?_, htopperm.nodup_iff.mpr (keyList_nodup _ _),
      hbotperm.nodup_iff.mpr (keyList_nodup _ _)⟩
    intro k
    rw [htopperm.mem_iff, hbotperm.mem_iff, mem_keyList, or_self]
    simp [List.mem_map]

theorem c9_top_bottom_complement_witness :
    ((((getTopRainfallAreas 5 false tblAlert).1).stationRows).map
        (fun s => (s.station_id, s.station_name))).Nodup :=
  (c9_top_bottom_complement 5 tblAlert
    (by rw [tblAlert_agg]; norm_num)
    (by rw [tblAlert_agg]; norm_num)).2.1

def rowC8 : Row := rowOf "A" 5 hr1

/-- C8, counterexample: after `get_top_rainfall_areas(group_nearby=True)`
the engine's `self.data` is not the table it started with — the in-place
column assignments have added `lat_group`/`lon_group`, which subsequent
calls on the same engine observe. -/
theorem c8_counterexample :
    (getTopRainfallAreas 10 true (analyzerInit [rowC8])).2 ≠
      analyzerInit [rowC8] := by
  intro h
  have h2 := congrArg (fun l => l.map XRow.lat_group) h
  simp [getTopRainfallAreas, analyzerInit, setGroupCols] at h2

/-- C8 (amended): the caller's table is protected by the `__init__` copy
and no operation except nearby-grouped top-N changes the engine's table;
but nearby-grouped top-N permanently writes the rounded
`lat_group`/`lon_group` columns into the engine's own table.  The leaked
columns are observed by, yet do not change the results of, every
aggregation operation, since each reads only the canonical columns. -/
theorem c8_group_column_leak (n : Nat) (d : AnalyzerData) :
    ((getTopRainfallAreas n false d).2 = d) ∧
    (d ≠ [] → (getTopRainfallAreas n true d).2 = d.map setGroupCols) ∧
    (baseData (d.map setGroupCols) = baseData d) ∧
    ((getTopRainfallAreas n false (d.map setGroupCols)).1 =
        (getTopRainfallAreas n false d).1) ∧
    (getLowestRainfallAreas n (d.map setGroupCols) =
        getLowestRainfallAreas n d) ∧
    (getHourlyDistribution (d.map setGroupCols) =
        getHourlyDistribution d) ∧
    (∀ now : Now, getMonthlyAverage now (d.map setGroupCols) =
        getMonthlyAverage now d) ∧
    (∀ (mult : ℚ) (now : Now),
        getAlertAreas mult now (d.map setGroupCols) =
          getAlertAreas mult now d) ∧
    (generateSummaryStats (d.map setGroupCols) = generateSummaryStats d) := by
  have hma : ∀ now : Now, getMonthlyAverage now (d.map setGroupCols) =
      getMonthlyAverage now d := by
    intro now
    simp [getMonthlyAverage, isEmpty_map, baseData_map_setGroupCols]
  refine ⟨?_, ?_, baseData_map_setGroupCols d, ?_, ?_, ?_, hma, ?_, ?_⟩
  · by_cases hd : d.isEmpty <;> simp [getTopRainfallAreas, hd]
  · intro h
    have hne : d.isEmpty = false := by
      cases d with
      | nil => exact absurd rfl h
      | cons a t => rfl
    simp [getTopRainfallAreas, hne]
  · by_cases hd : d = [] <;>
      simp [getTopRainfallAreas, isEmpty_map, baseData_map_setGroupCols, hd]
  · simp [getLowestRainfallAreas, isEmpty_map, baseData_map_setGroupCols]
  · simp [getHourlyDistribution, isEmpty_map, baseData_map_setGroupCols]
  · intro mult now
    simp [getAlertAreas, isEmpty_map, baseData_map_setGroupCols, hma]
  · simp [generateSummaryStats, isEmpty_map, baseData_map_setGroupCols]

theorem c8_group_column_leak_witness :
    (getTopRainfallAreas 3 true (analyzerInit [rowC8])).2 =
      (analyzerInit [rowC8]).map setGroupCols :=
  (c8_group_column_leak 3 (analyzerInit [rowC8])).2.1 (by decide)

/-! ### Alias-consistent payload renderings (claim C7) -/

/-- The logical content of one station entry, independent of which alias
names its fields use. -/
structure AbsStation where
  sid : String
  sname : String
  alat : ℚ
  alon : ℚ

/-- Which alias each logical station field uses: identifier `id`/`stationId`,
location object `labelLocation`/`location`/`coordinates`, latitude
`latitude`/`lat`, longitude `longitude`/`lng`/`lon`. -/
structure StationChoice where
  idA : Fin 2
  locA : Fin 3
  latA : Fin 2
  lonA : Fin 3

def renderLoc (c : StationChoice) (s : AbsStation) : RawLoc :=
  { latitude := if c.latA = 0 then some s.alat else none
    lat := if c.latA = 1 then some s.alat else none
    longitude := if c.lonA = 0 then some s.alon else none
    lng := if c.lonA = 1 then some s.alon else none
    lon := if c.lonA = 2 then some s.alon else none }

def renderStation (c : StationChoice) (s : AbsStation) : RawStation :=
  { id := if c.idA = 0 then some s.sid else none
    stationId := if c.idA = 1 then some s.sid else none
    name := some s.sname
    labelLocation := if c.locA = 0 then some (renderLoc c s) else none
    location := if c.locA = 1 then some (renderLoc c s) else none
    coordinates := if c.locA = 2 then some (renderLoc c s) else none }

structure AbsPoint where
  psid : String
  pval : ℚ

/-- Which alias each logical reading field uses: station id
`stationId`/`station_id`/`id`, value `value`/`rainfall`. -/
structure PointChoice where
  sidA : Fin 3
  valA : Fin 2

def renderPoint (c : PointChoice) (pt : AbsPoint) : RawDataPoint :=
  { stationId := if c.sidA = 0 then some pt.psid else none
    station_id := if c.sidA = 1 then some pt.psid else none
    id := if c.sidA = 2 then some pt.psid else none
    value := if c.valA = 0 then some pt.pval else none
    rainfall := if c.valA = 1 then some pt.pval else none }

structure AbsReading where
  rts : Ts
  points : List AbsPoint

/-- Bucket timestamp alias `timestamp`/`time`, plus the data-point
choices. -/
structure ReadingChoice where
  tsA : Fin 2
  pc : PointChoice

def renderReading (c : ReadingChoice) (r : AbsReading) : RawReadingEntry :=
  .dict
    { timestamp := if c.tsA = 0 then some (.valid r.rts) else none
      time := if c.tsA = 1 then some (.valid r.rts) else none
      data := r.points.map fun pt => .dict (renderPoint c.pc pt) }

structure AbsPayload where
  stations : List AbsStation
  readings : List AbsReading

structure Choice where
  sc : StationChoice
  rc : ReadingChoice

def renderPayload (c : Choice) (p : AbsPayload) : Payload :=
  some
    { stations := p.stations.map fun s => .dict (renderStation c.sc s)
      readings := p.readings.map (renderReading c.rc) }

lemma extract_renderStation (c : StationChoice) (s : AbsStation) :
    extractStationInfo (renderStation c s) =
      (s.sid, ⟨s.sname, s.alat, s.alon⟩) := by
  rcases c with ⟨i, l, la, lo⟩
  fin_cases i <;> fin_cases l <;> fin_cases la <;> fin_cases lo <;> rfl

/-- The insertions `process_stations` performs for an alias-consistent
station list, alias-independently. -/
def insertAbsStations (l : List AbsStation) (m : StationsInfo) : StationsInfo :=
  match l with
  | [] => m
  | s :: t => insertAbsStations t (m.insert s.sid ⟨s.sname, s.alat, s.alon⟩)

lemma loop_renderStations (c : StationChoice) :
    ∀ (l : List AbsStation) (m : StationsInfo),
      processStationsLoop (l.map fun s => .dict (renderStation c s)) m =
        (insertAbsStations l m, .ok ()) := by
  intro l
  induction l with
  | nil => intro m; rfl
  | cons s t ih =>
      intro m
      show processStationsLoop (t.map fun s => .dict (renderStation c s))
          (m.insert (extractStationInfo (renderStation c s)).1
            (extractStationInfo (renderStation c s)).2) =
        (insertAbsStations (s :: t) m, .ok ())
      rw [extract_renderStation]
      exact ih _

lemma processStations_ok_state (d : PayloadData) (st : ProcState)
    (m : StationsInfo)
    (h : processStationsLoop d.stations st.stations_info = (m, .ok ())) :
    ((processStations (some d) st).1).stations_info =
      if d.stations.isEmpty then st.stations_info else m := by
  simp only [processStations]
  rw [h]
  cases hIE : d.stations.isEmpty <;> simp [hIE]

lemma processStations_render_state (c : Choice) (p : AbsPayload)
    (st : ProcState) :
    ((processStations (renderPayload c p) st).1).stations_info =
      if p.stations.isEmpty then st.stations_info
      else insertAbsStations p.stations st.stations_info := by
  have hloop := loop_renderStations c.sc p.stations st.stations_info
  have hmain := processStations_ok_state
    ⟨p.stations.map fun s => .dict (renderStation c.sc s),
      p.readings.map (renderReading c.rc)⟩ st
    (insertAbsStations p.stations st.stations_info) hloop
  rw [isEmpty_map] at hmain
  exact hmain

def canonPoint (pt : AbsPoint) : RawDataPoint :=
  ⟨some pt.psid, none, none, some pt.pval, none⟩

lemma renderPoint_sid (c : PointChoice) (pt : AbsPoint) :
    extractDpStationId (renderPoint c pt) = pt.psid := by
  rcases c with ⟨s, v⟩
  fin_cases s <;> rfl

lemma renderPoint_val (c : PointChoice) (pt : AbsPoint) :
    extractDpValue (renderPoint c pt) = pt.pval := by
  rcases c with ⟨s, v⟩
  fin_cases v <;> rfl

lemma mkRowP_renderPoint (m : StationsInfo) (tsv : TsV) (c : PointChoice)
    (pt : AbsPoint) :
    mkRowP m tsv (renderPoint c pt) = mkRowP m tsv (canonPoint pt) := by
  simp [mkRowP, renderPoint_sid, renderPoint_val,
    show extractDpStationId (canonPoint pt) = pt.psid from rfl,
    show extractDpValue (canonPoint pt) = pt.pval from rfl]

lemma processBucket_render (m : StationsInfo) (c : ReadingChoice)
    (r : AbsReading) :
    processBucket m (renderReading c r) =
      .ok (r.points.map fun pt => mkRowP m (.ts r.rts) (canonPoint pt)) := by
  have hpt : ∀ pt : AbsPoint,
      processDataPoint m (.valid r.rts) (.dict (renderPoint c.pc pt)) =
        .ok (mkRowP m (.ts r.rts) (canonPoint pt)) := by
    intro pt
    simp [processDataPoint, pdToDatetime, Except.map, mkRowP_renderPoint]
  rcases c with ⟨t, pc⟩
  fin_cases t
  · exact exceptMap_map_ok hpt r.points
  · exact exceptMap_map_ok hpt r.points

lemma processReadings_render (c : Choice) (p : AbsPayload) (st : ProcState) :
    processReadings (renderPayload c p) st =
      .ok ((p.readings.map fun r => r.points.map fun pt =>
          mkRowP st.stations_info (.ts r.rts) (canonPoint pt)).flatten) := by
  cases hb : p.readings with
  | nil => simp [processReadings, renderPayload, hb]
  | cons r t =>
      have h1 := exceptMap_map_ok
        (fun r2 => processBucket_render st.stations_info c.rc r2) p.readings
      simp only [processReadings, renderPayload, isEmpty_map, hb,
        List.isEmpty_cons, Bool.false_eq_true, if_false]
      rw [← hb, h1]
      rfl

/-- C7: for a payload whose fields use one supported alias consistently,
the normalization output — the accumulated station map and the reading
table — is the same whichever alias combination is used. -/
theorem c7_alias_invariance (c c2 : Choice) (p : AbsPayload)
    (st : ProcState) :
    ((processStations (renderPayload c p) st).1).stations_info =
      ((processStations (renderPayload c2 p) st).1).stations_info ∧
    processReadings (renderPayload c p)
        ((processStations (renderPayload c p) st).1) =
      processReadings (renderPayload c2 p)
        ((processStations (renderPayload c2 p) st).1) := by
  have h1 := processStations_render_state c p st
  have h2 := processStations_render_state c2 p st
  refine ⟨h1.trans h2.symm, ?_⟩
  rw [processReadings_render, processReadings_render, h1, h2]

end Bonito
